import Mathlib

/-!
Verification of the poloc on-chain program (programs/poloc/src).

The program is an Anchor/Solana program; we embed it shallowly:

* machine integers (`u64`, `u32`) become `Nat` with explicit checked
  arithmetic mirroring Rust's `checked_add`/`checked_sub`/`checked_div`;
* each instruction handler becomes a pure function returning
  `Except PolocError _`, translated line by line from its Rust source;
* the Anchor `#[derive(Accounts)]` constraints (PDA seed resolution,
  `init` uniqueness, `close`, `address =` and `constraint =` checks)
  become the account-lookup and guard steps of a chain-level `step`
  function over an explicit account store (`Chain`);
* the Solana clock becomes an explicit `now : Int` argument;
* lamport transfers are modeled by the transferred amounts carried in
  handler results; the `reward_pool` bookkeeping field is the object of
  the claims and is modeled exactly.
-/

namespace Poloc

/-- Account addresses (Solana `Pubkey`), abstracted as naturals. -/
abbrev Pubkey := Nat

/-- Largest `u64` value. -/
def U64_MAX : Nat := 2 ^ 64 - 1

/-- Largest `u32` value. -/
def U32_MAX : Nat := 2 ^ 32 - 1

/-- Rust `u64::checked_add`. -/
def checked_add_u64 (a b : Nat) : Option Nat :=
  if a + b ≤ U64_MAX then some (a + b) else none

/-- Rust `u64::checked_sub`. -/
def checked_sub_u64 (a b : Nat) : Option Nat :=
  if b ≤ a then some (a - b) else none

/-- Rust `u64::checked_div`. -/
def checked_div_u64 (a b : Nat) : Option Nat :=
  if b = 0 then none else some (a / b)

/-- Rust `u32::checked_add`. -/
def checked_add_u32 (a b : Nat) : Option Nat :=
  if a + b ≤ U32_MAX then some (a + b) else none

/-- `ChallengeStatus` from state.rs. -/
inductive ChallengeStatus where
  | Active
  | Finalized
  | Expired
  | InsufficientParticipants
  deriving DecidableEq, Repr

/-- The `Challenge` account from state.rs (the `bump` field is PDA
plumbing with no semantic content and is dropped). -/
structure Challenge where
  challenge_id : String
  waldo : Pubkey
  claimed_lat : Int
  claimed_lon : Int
  start_time : Int
  deadline : Int
  reward_pool : Nat
  status : ChallengeStatus
  participant_count : Nat
  vote_count : Nat
  valid_vote_count : Nat
  r_star : Nat
  r_star_threshold : Nat
  rewards_distributed : Bool
  deriving DecidableEq, Repr

/-- The `Stake` account from state.rs. -/
structure Stake where
  challenger : Pubkey
  challenge_id : String
  amount : Nat
  timestamp : Int
  slashed : Bool
  deriving DecidableEq, Repr

/-- The `Vote` account from state.rs. -/
structure Vote where
  challenger : Pubkey
  challenge_id : String
  challenger_id : String
  is_valid : Bool
  uncertainty : Nat
  min_rtt : Nat
  timestamp : Int
  processed : Bool
  deriving DecidableEq, Repr

/-- `PolocError` from errors.rs. -/
inductive PolocError where
  | ChallengeNotFound
  | ChallengeExpired
  | ChallengeNotActive
  | VotingNotOpen
  | VotingClosed
  | InsufficientStake
  | AlreadyStaked
  | MaxParticipantsReached
  | ChallengerNotStaked
  | AlreadyVoted
  | ChallengeNotFinalized
  | RewardsAlreadyDistributed
  | Unauthorized
  | InvalidParameters
  | ArithmeticOverflow
  | InsufficientParticipants
  | NoValidVotes
  | AlreadyClaimed
  | ChallengeFailed
  | VotedIncorrectly
  | CannotRefundSuccessfulChallenge
  | AlreadySlashed
  | StakeSlashed
  deriving DecidableEq, Repr

/-- Failure of a whole transaction: either a program error raised by a
handler or an Anchor account-resolution failure (a required account is
missing at the derived address, or `init` finds the address occupied). -/
inductive TxError where
  | poloc (e : PolocError)
  | accountNotFound
  | accountAlreadyInUse
  deriving DecidableEq, Repr

/-- `VOTING_WINDOW` from finalize.rs (production value; vote.rs hardcodes
the same 300 seconds). -/
def VOTING_WINDOW : Int := 300

/-- instructions/initialize_challenge.rs `handler`. -/
def initialize_challenge (now : Int) (waldo : Pubkey) (challenge_id : String)
    (claimed_lat claimed_lon : Int) (duration reward_pool : Nat) :
    Except PolocError Challenge :=
  if duration > 0 ∧ duration ≤ 86400 then
  if reward_pool > 0 then
  if claimed_lat.natAbs ≤ 90000000 then
  if claimed_lon.natAbs ≤ 180000000 then
  .ok
    { challenge_id := challenge_id
      waldo := waldo
      claimed_lat := claimed_lat
      claimed_lon := claimed_lon
      start_time := now
      deadline := now + (duration : Int)
      reward_pool := if reward_pool > 0 then reward_pool else 0
      status := .Active
      participant_count := 0
      vote_count := 0
      valid_vote_count := 0
      r_star := 0
      r_star_threshold := 1000
      rewards_distributed := false }
  else .error .InvalidParameters
  else .error .InvalidParameters
  else .error .InvalidParameters
  else .error .InvalidParameters

/-- instructions/stake.rs `handler`: returns the updated challenge and the
freshly initialized stake account.  The lamport transfer
challenger → challenge PDA moves exactly `amount`. -/
def stake (now : Int) (challenge : Challenge) (challenger : Pubkey)
    (challenge_id : String) (amount : Nat) :
    Except PolocError (Challenge × Stake) :=
  if challenge.status = .Active then
  if now ≤ challenge.deadline then
  if amount ≥ 1000000 then
  if challenge.participant_count < 20 then
    match checked_add_u64 challenge.reward_pool amount with
    | none => .error .ArithmeticOverflow
    | some pool =>
      match checked_add_u32 challenge.participant_count 1 with
      | none => .error .ArithmeticOverflow
      | some pc =>
        .ok ({ challenge with reward_pool := pool, participant_count := pc },
          { challenger := challenger
            challenge_id := challenge_id
            amount := amount
            timestamp := now
            slashed := false })
  else .error .MaxParticipantsReached
  else .error .InsufficientStake
  else .error .ChallengeExpired
  else .error .ChallengeNotActive

/-- instructions/vote.rs `handler`: `stake_account` is the caller's stake
account resolved by the `SubmitVote` accounts struct. -/
def submit_vote (now : Int) (challenge : Challenge) (stake_account : Stake)
    (challenger : Pubkey) (challenge_id challenger_id : String)
    (is_valid : Bool) (uncertainty min_rtt : Nat) :
    Except PolocError (Challenge × Vote) :=
  if challenge.status = .Active then
  if now ≤ challenge.deadline then .error .VotingNotOpen
  else if now > challenge.deadline + 300 then .error .VotingClosed
  else if stake_account.slashed then .error .StakeSlashed
  else
  if uncertainty ≤ 50000 then
  if min_rtt > 0 ∧ min_rtt ≤ 1000000 then
    match checked_add_u32 challenge.vote_count 1 with
    | none => .error .ArithmeticOverflow
    | some vc =>
      match (if is_valid then checked_add_u32 challenge.valid_vote_count 1
             else some challenge.valid_vote_count) with
      | none => .error .ArithmeticOverflow
      | some vvc =>
        .ok ({ challenge with vote_count := vc, valid_vote_count := vvc },
          { challenger := challenger
            challenge_id := challenge_id
            challenger_id := challenger_id
            is_valid := is_valid
            uncertainty := uncertainty
            min_rtt := min_rtt
            timestamp := now
            processed := false })
  else .error .InvalidParameters
  else .error .InvalidParameters
  else .error .ChallengeNotActive

/-- instructions/finalize.rs `handler` (production `VOTING_WINDOW = 300`). -/
def finalize_challenge (now : Int) (challenge : Challenge) (r_star_from_js : Nat) :
    Except PolocError Challenge :=
  if challenge.status = .Active then
  if now > challenge.deadline + VOTING_WINDOW then
  if challenge.participant_count < 3 then
    .ok { challenge with status := .InsufficientParticipants }
  else
    .ok { challenge with r_star := r_star_from_js, status := .Finalized }
  else .error .ChallengeExpired
  else .error .ChallengeNotActive

/-- instructions/claim_reward.rs `handler`: returns the updated challenge,
the updated vote, and the number of lamports transferred from the
challenge PDA to the winner. -/
def claim_reward (challenge : Challenge) (vote : Vote) :
    Except PolocError (Challenge × Vote × Nat) :=
  if challenge.status = .Finalized then
  if challenge.r_star ≤ challenge.r_star_threshold then
  if vote.is_valid then
  if challenge.valid_vote_count > 0 then
    match checked_div_u64 challenge.reward_pool challenge.valid_vote_count with
    | none => .error .ArithmeticOverflow
    | some reward_per_participant =>
      match checked_sub_u64 challenge.reward_pool reward_per_participant with
      | none => .error .ArithmeticOverflow
      | some pool =>
        .ok ({ challenge with
                reward_pool := pool
                rewards_distributed := if pool = 0 then true else challenge.rewards_distributed },
          { vote with processed := true }, reward_per_participant)
  else .error .NoValidVotes
  else .error .VotedIncorrectly
  else .error .ChallengeFailed
  else .error .ChallengeNotFinalized

/-- instructions/slash.rs `handler`: `stake_account` is the account
resolved (and then closed, `close = challenge`) by the `Slash` accounts
struct; the returned `Nat` is the forfeited stake amount added to the
pool.  Note the handler does not touch any `slashed` flag — the account
is closed instead. -/
def slash (challenge : Challenge) (stake_account : Stake) :
    Except PolocError (Challenge × Nat) :=
  if challenge.status = .Finalized then
    match checked_add_u64 challenge.reward_pool stake_account.amount with
    | none => .error .ArithmeticOverflow
    | some pool =>
      .ok ({ challenge with reward_pool := pool }, stake_account.amount)
  else .error .ChallengeNotFinalized

/-- instructions/refund_failed_challenge.rs `handler`: on success the
challenge account is closed (`close = waldo_account`) and all its
lamports — modeled by the returned remaining `reward_pool` — go back to
the waldo. -/
def refund_failed_challenge (challenge : Challenge)
    (waldo_account authority : Pubkey) : Except PolocError Nat :=
  if authority = waldo_account then
  if waldo_account = challenge.waldo then
  if challenge.status = .Finalized ∨ challenge.status = .InsufficientParticipants then
  if challenge.rewards_distributed then .error .RewardsAlreadyDistributed
  else if challenge.status = .Finalized ∧
          challenge.r_star ≤ challenge.r_star_threshold then
    .error .CannotRefundSuccessfulChallenge
  else .ok challenge.reward_pool
  else .error .ChallengeNotFinalized
  else .error .Unauthorized
  else .error .Unauthorized

/-! ## Chain-level model

Accounts live in an explicit store keyed by their PDA seeds.  Stake
accounts are the delicate case: stake.rs derives the stake PDA from
`[b"stake", challenge_id.as_bytes(), challenger]` while slash.rs derives
it from `[b"stake", challenge.key().as_ref(), challenger]`.  The
challenge PDA address is a 32-byte hash-derived, off-curve value, so it
never coincides with the caller-chosen literal `challenge_id` bytes; the
two derivations are therefore modeled by distinct constructors. -/

/-- The middle seed of a stake PDA: either the literal `challenge_id`
bytes (stake.rs, vote.rs) or the challenge account's address
(slash.rs), tagged by the id the address was derived from. -/
inductive StakeSeed where
  | byId (challenge_id : String)
  | byChallengeAddress (challenge_id : String)
  deriving DecidableEq, Repr

/-- Association-list lookup (first binding wins, like the runtime's
account store). -/
def alookup {α β : Type} [DecidableEq α] : List (α × β) → α → Option β
  | [], _ => none
  | (k, v) :: rest, a => if k = a then some v else alookup rest a

/-- Association-list write: overwrite the first binding of the key, or
append a new binding. -/
def aset {α β : Type} [DecidableEq α] : List (α × β) → α → β → List (α × β)
  | [], a, b => [(a, b)]
  | (k, v) :: rest, a, b =>
    if k = a then (a, b) :: rest else (k, v) :: aset rest a b

/-- Association-list delete (account closing): drop the first binding of
the key. -/
def aremove {α β : Type} [DecidableEq α] : List (α × β) → α → List (α × β)
  | [], _ => []
  | (k, v) :: rest, a => if k = a then rest else (k, v) :: aremove rest a

/-- The program-owned account store: challenges keyed by `challenge_id`
(their PDA seed), stakes by `(StakeSeed, challenger)`, votes by
`(challenge_id, challenger)`. -/
structure Chain where
  challenges : List (String × Challenge)
  stakes : List ((StakeSeed × Pubkey) × Stake)
  votes : List ((String × Pubkey) × Vote)
  deriving DecidableEq, Repr

/-- The empty store (no program account exists yet). -/
def Chain.empty : Chain := { challenges := [], stakes := [], votes := [] }

/-- One program instruction with its signer(s) and arguments, as exposed
in lib.rs. -/
inductive Op where
  | initOp (waldo : Pubkey) (challenge_id : String) (claimed_lat claimed_lon : Int)
      (duration reward_pool : Nat)
  | stakeOp (challenger : Pubkey) (challenge_id : String) (amount : Nat)
  | voteOp (challenger : Pubkey) (challenge_id challenger_id : String)
      (is_valid : Bool) (uncertainty min_rtt : Nat)
  | finalizeOp (authority : Pubkey) (challenge_id : String) (r_star : Nat)
  | claimOp (winner : Pubkey) (challenge_id : String)
  | refundOp (authority waldo_account : Pubkey) (challenge_id : String)
  | slashOp (authority : Pubkey) (challenge_id : String) (challenger_pubkey : Pubkey)
  deriving DecidableEq, Repr

/-- Execute one transaction: Anchor account resolution (`seeds`, `init`,
`address =`, `constraint =`, `close =`) followed by the instruction
handler.  A failing transaction leaves the store untouched. -/
def step (s : Chain) (now : Int) : Op → Except TxError Chain
  | .initOp waldo id lat lon duration rp =>
    match alookup s.challenges id with
    | some _ => .error .accountAlreadyInUse
    | none =>
      match initialize_challenge now waldo id lat lon duration rp with
      | .error e => .error (.poloc e)
      | .ok c => .ok { s with challenges := aset s.challenges id c }
  | .stakeOp challenger id amount =>
    match alookup s.challenges id with
    | none => .error .accountNotFound
    | some c =>
      match alookup s.stakes (.byId id, challenger) with
      | some _ => .error .accountAlreadyInUse
      | none =>
        match stake now c challenger id amount with
        | .error e => .error (.poloc e)
        | .ok (c2, st) =>
          .ok { s with challenges := aset s.challenges id c2,
                       stakes := aset s.stakes (.byId id, challenger) st }
  | .voteOp challenger id cid is_valid uncertainty min_rtt =>
    match alookup s.challenges id with
    | none => .error .accountNotFound
    | some c =>
      match alookup s.stakes (.byId id, challenger) with
      | none => .error .accountNotFound
      | some st =>
        match alookup s.votes (id, challenger) with
        | some _ => .error .accountAlreadyInUse
        | none =>
          match submit_vote now c st challenger id cid is_valid uncertainty min_rtt with
          | .error e => .error (.poloc e)
          | .ok (c2, v) =>
            .ok { s with challenges := aset s.challenges id c2,
                         votes := aset s.votes (id, challenger) v }
  | .finalizeOp authority id r =>
    match alookup s.challenges id with
    | none => .error .accountNotFound
    | some c =>
      if authority = c.waldo then
        match finalize_challenge now c r with
        | .error e => .error (.poloc e)
        | .ok c2 => .ok { s with challenges := aset s.challenges id c2 }
      else .error (.poloc .Unauthorized)
  | .claimOp winner id =>
    match alookup s.challenges id with
    | none => .error .accountNotFound
    | some c =>
      match alookup s.votes (id, winner) with
      | none => .error .accountNotFound
      | some v =>
        if v.challenger = winner then
          if v.processed then .error (.poloc .AlreadyClaimed)
          else
            match claim_reward c v with
            | .error e => .error (.poloc e)
            | .ok (c2, v2, _reward) =>
              .ok { s with challenges := aset s.challenges id c2,
                           votes := aset s.votes (id, winner) v2 }
        else .error (.poloc .Unauthorized)
  | .refundOp authority waldo_account id =>
    match alookup s.challenges id with
    | none => .error .accountNotFound
    | some c =>
      match refund_failed_challenge c waldo_account authority with
      | .error e => .error (.poloc e)
      | .ok _refund => .ok { s with challenges := aremove s.challenges id }
  | .slashOp authority id challenger_pubkey =>
    match alookup s.challenges id with
    | none => .error .accountNotFound
    | some c =>
      match alookup s.stakes (.byChallengeAddress id, challenger_pubkey) with
      | none => .error .accountNotFound
      | some st =>
        if authority = c.waldo then
          match slash c st with
          | .error e => .error (.poloc e)
          | .ok (c2, _amt) =>
            .ok { s with challenges := aset s.challenges id c2,
                         stakes := aremove s.stakes (.byChallengeAddress id, challenger_pubkey) }
        else .error (.poloc .Unauthorized)

/-- Run a list of timestamped transactions, stopping at the first failure. -/
def runTrace : Chain → List (Int × Op) → Except TxError Chain
  | s, [] => .ok s
  | s, (now, op) :: rest =>
    match step s now op with
    | .error e => .error e
    | .ok s2 => runTrace s2 rest

/-- Project a transaction result back to a store (for naming intermediate
states of concrete traces; only ever applied to successful results). -/
def getOk : Except TxError Chain → Chain
  | .ok s => s
  | .error _ => Chain.empty

/-- States reachable from the empty store by successful transactions. -/
inductive Reachable : Chain → Prop where
  | base : Reachable Chain.empty
  | tx {s : Chain} {now : Int} {op : Op} {s2 : Chain} :
      Reachable s → step s now op = .ok s2 → Reachable s2

instance {ε α : Type} [DecidableEq ε] [DecidableEq α] : DecidableEq (Except ε α)
  | .error a, .error b =>
    if h : a = b then .isTrue (by rw [h]) else .isFalse (fun hh => h (Except.error.inj hh))
  | .error _, .ok _ => .isFalse (fun hh => Except.noConfusion hh)
  | .ok _, .error _ => .isFalse (fun hh => Except.noConfusion hh)
  | .ok a, .ok b =>
    if h : a = b then .isTrue (by rw [h]) else .isFalse (fun hh => h (Except.ok.inj hh))

/-! ## Concrete traces

Waldo is principal `9`, the challengers are `1`, `2`, `3`; the challenge
id is `"c"`; all times are unix seconds with the challenge created at
time `0` and `duration = 100`, so `deadline = 100` and the voting window
is `(100, 400]`. -/

/-- The §8 reward scenario up to finalization: creation with
`reward_pool = 3000000`, three stakes of `1000000`, three `is_valid`
votes, finalization with `r_star = 500` (threshold `1000`). -/
def traceScenario : List (Int × Op) :=
  [ (0, .initOp 9 "c" 0 0 100 3000000),
    (50, .stakeOp 1 "c" 1000000),
    (51, .stakeOp 2 "c" 1000000),
    (52, .stakeOp 3 "c" 1000000),
    (150, .voteOp 1 "c" "s1" true 100 1000),
    (151, .voteOp 2 "c" "s2" true 100 1000),
    (152, .voteOp 3 "c" "s3" true 100 1000),
    (401, .finalizeOp 9 "c" 500) ]

/-- The finalized scenario state (pool `6000000`, three valid votes). -/
def sFinalized : Chain := getOk (runTrace Chain.empty traceScenario)

/-- Scenario state after challenger 1 claims. -/
def sClaim1 : Chain := getOk (step sFinalized 450 (.claimOp 1 "c"))

/-- Scenario state after challengers 1 and 2 claim. -/
def sClaim2 : Chain := getOk (step sClaim1 451 (.claimOp 2 "c"))

/-- Scenario state after all three challengers claim. -/
def sClaim3 : Chain := getOk (step sClaim2 452 (.claimOp 3 "c"))

/-- A trace reaching `rewards_distributed = true`: as in the scenario but
with a single `is_valid` vote, whose claim drains the whole pool. -/
def traceDrained : List (Int × Op) :=
  [ (0, .initOp 9 "c" 0 0 100 3000000),
    (50, .stakeOp 1 "c" 1000000),
    (51, .stakeOp 2 "c" 1000000),
    (52, .stakeOp 3 "c" 1000000),
    (150, .voteOp 1 "c" "s1" true 100 1000),
    (151, .voteOp 2 "c" "s2" false 100 1000),
    (152, .voteOp 3 "c" "s3" false 100 1000),
    (401, .finalizeOp 9 "c" 500),
    (450, .claimOp 1 "c") ]

/-- The drained state: `reward_pool = 0`, `rewards_distributed = true`. -/
def sDrained : Chain := getOk (runTrace Chain.empty traceDrained)

/-- Challenge-id reuse: two challengers stake, finalization hits
`InsufficientParticipants`, the waldo is refunded (closing the challenge
but not the stake accounts), the same id is re-initialized, and
challenger 1 votes in the new window using the leftover stake account. -/
def traceReuse : List (Int × Op) :=
  [ (0, .initOp 9 "c" 0 0 100 3000000),
    (50, .stakeOp 1 "c" 1000000),
    (60, .stakeOp 2 "c" 1000000),
    (401, .finalizeOp 9 "c" 0),
    (402, .refundOp 9 9 "c"),
    (500, .initOp 9 "c" 0 0 100 3000000),
    (650, .voteOp 1 "c" "s1" true 100 1000) ]

/-- The state reached by `traceReuse`. -/
def sReuse : Chain := getOk (runTrace Chain.empty traceReuse)

/-- A finalized, passed challenge with a pool of `6000000` (the scenario
state as a literal record). -/
def cFin : Challenge :=
  { challenge_id := "c", waldo := 9, claimed_lat := 0, claimed_lon := 0,
    start_time := 0, deadline := 100, reward_pool := 6000000,
    status := .Finalized, participant_count := 3, vote_count := 3,
    valid_vote_count := 3, r_star := 500, r_star_threshold := 1000,
    rewards_distributed := false }

/-- An active two-participant challenge (deadline 100). -/
def cAct : Challenge :=
  { cFin with status := .Active, r_star := 0, participant_count := 2,
              vote_count := 2, valid_vote_count := 2 }

/-- An active three-participant challenge (deadline 100). -/
def cAct3 : Challenge := { cAct with participant_count := 3 }

/-- A stake record of the minimum amount by challenger 1. -/
def stFin : Stake :=
  { challenger := 1, challenge_id := "c", amount := 1000000,
    timestamp := 50, slashed := false }

/-- A finalized, passed, fully drained challenge
(`reward_pool = 0`, `rewards_distributed = true`, one valid vote). -/
def cZero : Challenge :=
  { cFin with reward_pool := 0, valid_vote_count := 1,
              rewards_distributed := true }

/-- An unprocessed valid vote by challenger 1. -/
def vZero : Vote :=
  { challenger := 1, challenge_id := "c", challenger_id := "s1",
    is_valid := true, uncertainty := 100, min_rtt := 1000,
    timestamp := 150, processed := false }

/-- A store holding `cZero` and `vZero`. -/
def sZero : Chain :=
  { challenges := [("c", cZero)], stakes := [], votes := [(("c", 1), vZero)] }

/-- The challenge record stored in `sDrained`. -/
def cDrained : Challenge :=
  match alookup sDrained.challenges "c" with
  | some c => c
  | none => cFin

/-- The challenge record stored in `sReuse`. -/
def cReuse : Challenge :=
  match alookup sReuse.challenges "c" with
  | some c => c
  | none => cFin

/-- The store right after creating the scenario challenge on a pristine id. -/
def sInit1 : Chain := getOk (step Chain.empty 0 (.initOp 9 "c" 0 0 100 3000000))

/-- The challenge record stored in `sInit1`. -/
def cInit1 : Challenge :=
  match alookup sInit1.challenges "c" with
  | some c => c
  | none => cFin

/-- Challengers holding a stake account for the given id in a stake list
(under the stake.rs key derivation). -/
def stakerList (l : List ((StakeSeed × Pubkey) × Stake)) (id : String) : List Pubkey :=
  (l.filter fun p => decide (p.1.1 = StakeSeed.byId id)).map fun p => p.1.2

/-- Challengers holding a vote account for the given id in a vote list. -/
def voterList (l : List ((String × Pubkey) × Vote)) (id : String) : List Pubkey :=
  (l.filter fun p => decide (p.1.1 = id)).map fun p => p.1.2

/-- An `Op` whose kind the §3 invariant restricts once
`rewards_distributed` is set: claim, refund or slash on the given id. -/
def settlesPool (id : String) : Op → Prop
  | .claimOp _ i => i = id
  | .refundOp _ _ i => i = id
  | .slashOp _ i _ => i = id
  | _ => False

/-- Global state invariant: every stake account sits under a stake.rs key
(the slash.rs derivation never creates accounts, it only closes), stake
accounts never carry a raised `slashed` flag, and a challenge marked
`rewards_distributed` has an empty pool and `Finalized` status. -/
structure Inv (s : Chain) : Prop where
  stakes_byId : ∀ p ∈ s.stakes, ∃ cid, p.1.1 = StakeSeed.byId cid
  stakes_unslashed : ∀ p ∈ s.stakes, p.2.slashed = false
  distributed_drained : ∀ p ∈ s.challenges, p.2.rewards_distributed = true →
    p.2.reward_pool = 0 ∧ p.2.status = .Finalized

/-- Per-challenge tally invariant: the counters measure the actual stake
and vote accounts, every voter has a (counted) stake, and account keys
are duplicate-free. -/
structure TallyInv (s : Chain) (id : String) : Prop where
  counts : ∀ c, alookup s.challenges id = some c →
    c.participant_count = (stakerList s.stakes id).length ∧
    c.vote_count = (voterList s.votes id).length ∧
    c.valid_vote_count ≤ c.vote_count
  votersStaked : ∀ p ∈ voterList s.votes id, p ∈ stakerList s.stakes id
  nodupStakers : (stakerList s.stakes id).Nodup
  nodupVoters : (voterList s.votes id).Nodup

/-- States reachable from `s0` by successful `stake` and `submit_vote`
transactions only. -/
inductive SVReach (s0 : Chain) : Chain → Prop where
  | base : SVReach s0 s0
  | stakeTx {s : Chain} {now : Int} {ch : Pubkey} {id : String} {amt : Nat} {s2 : Chain} :
      SVReach s0 s → step s now (.stakeOp ch id amt) = .ok s2 → SVReach s0 s2
  | voteTx {s : Chain} {now : Int} {ch : Pubkey} {id cid : String} {b : Bool}
      {u r : Nat} {s2 : Chain} :
      SVReach s0 s → step s now (.voteOp ch id cid b u r) = .ok s2 → SVReach s0 s2

/-! ## Lemmas about the checked arithmetic and the account store -/

theorem checked_add_u64_some {a b x : Nat} (h : checked_add_u64 a b = some x) :
    x = a + b ∧ a + b ≤ U64_MAX := by
  unfold checked_add_u64 at h
  split at h
  · exact ⟨(Option.some.inj h).symm, by assumption⟩
  · exact Option.noConfusion h

theorem checked_add_u32_some {a b x : Nat} (h : checked_add_u32 a b = some x) :
    x = a + b ∧ a + b ≤ U32_MAX := by
  unfold checked_add_u32 at h
  split at h
  · exact ⟨(Option.some.inj h).symm, by assumption⟩
  · exact Option.noConfusion h

theorem checked_sub_u64_some {a b x : Nat} (h : checked_sub_u64 a b = some x) :
    x = a - b ∧ b ≤ a := by
  unfold checked_sub_u64 at h
  split at h
  · exact ⟨(Option.some.inj h).symm, by assumption⟩
  · exact Option.noConfusion h

theorem checked_div_u64_some {a b x : Nat} (h : checked_div_u64 a b = some x) :
    x = a / b ∧ b ≠ 0 := by
  unfold checked_div_u64 at h
  split at h
  · exact Option.noConfusion h
  · exact ⟨(Option.some.inj h).symm, by assumption⟩

theorem alookup_mem {α β : Type} [DecidableEq α] {l : List (α × β)} {a : α} {b : β}
    (h : alookup l a = some b) : (a, b) ∈ l := by
  induction l with
  | nil => exact Option.noConfusion h
  | cons hd tl ih =>
    obtain ⟨k, v⟩ := hd
    unfold alookup at h
    split at h
    · rename_i hk
      cases Option.some.inj h
      cases hk
      exact List.mem_cons_self _ _
    · exact List.mem_cons_of_mem _ (ih h)

theorem alookup_isSome_of_mem {α β : Type} [DecidableEq α] {l : List (α × β)}
    {a : α} {b : β} (h : (a, b) ∈ l) : ∃ b2, alookup l a = some b2 := by
  induction l with
  | nil => cases h
  | cons hd tl ih =>
    obtain ⟨k, v⟩ := hd
    rcases List.mem_cons.mp h with h1 | h1
    · cases h1
      exact ⟨b, by simp [alookup]⟩
    · by_cases hk : k = a
      · exact ⟨v, by simp [alookup, hk]⟩
      · obtain ⟨b2, hb2⟩ := ih h1
        exact ⟨b2, by simp [alookup, hk, hb2]⟩

theorem mem_aset {α β : Type} [DecidableEq α] {l : List (α × β)} {a : α} {b : β}
    {x : α × β} (h : x ∈ aset l a b) : x = (a, b) ∨ x ∈ l := by
  induction l with
  | nil =>
    unfold aset at h
    rcases List.mem_cons.mp h with h1 | h1
    · exact Or.inl h1
    · cases h1
  | cons hd tl ih =>
    obtain ⟨k, v⟩ := hd
    unfold aset at h
    split at h
    · rcases List.mem_cons.mp h with h1 | h1
      · exact Or.inl h1
      · exact Or.inr (List.mem_cons_of_mem _ h1)
    · rcases List.mem_cons.mp h with h1 | h1
      · exact Or.inr (h1 ▸ List.mem_cons_self _ _)
      · rcases ih h1 with h2 | h2
        · exact Or.inl h2
        · exact Or.inr (List.mem_cons_of_mem _ h2)

theorem mem_aremove {α β : Type} [DecidableEq α] {l : List (α × β)} {a : α}
    {x : α × β} (h : x ∈ aremove l a) : x ∈ l := by
  induction l with
  | nil => cases h
  | cons hd tl ih =>
    obtain ⟨k, v⟩ := hd
    unfold aremove at h
    split at h
    · exact List.mem_cons_of_mem _ h
    · rcases List.mem_cons.mp h with h1 | h1
      · exact h1 ▸ List.mem_cons_self _ _
      · exact List.mem_cons_of_mem _ (ih h1)

theorem alookup_aset_self {α β : Type} [DecidableEq α] {l : List (α × β)}
    {a : α} {b : β} : alookup (aset l a b) a = some b := by
  induction l with
  | nil => simp [aset, alookup]
  | cons hd tl ih =>
    obtain ⟨k, v⟩ := hd
    unfold aset
    split
    · simp [alookup]
    · rename_i hk
      simp [alookup, hk, ih]

theorem alookup_aset_ne {α β : Type} [DecidableEq α] {l : List (α × β)}
    {a a2 : α} {b : β} (h : a2 ≠ a) : alookup (aset l a b) a2 = alookup l a2 := by
  induction l with
  | nil =>
    simp only [aset, alookup]
    rw [if_neg (fun hh : a = a2 => h hh.symm)]
  | cons hd tl ih =>
    obtain ⟨k, v⟩ := hd
    unfold aset
    split
    · rename_i hk
      cases hk
      simp only [alookup]
      rw [if_neg (fun hh : a = a2 => h hh.symm), if_neg (fun hh : a = a2 => h hh.symm)]
    · unfold alookup
      split
      · rfl
      · exact ih

theorem aset_eq_append {α β : Type} [DecidableEq α] {l : List (α × β)}
    {a : α} {b : β} (h : alookup l a = none) : aset l a b = l ++ [(a, b)] := by
  induction l with
  | nil => simp [aset]
  | cons hd tl ih =>
    obtain ⟨k, v⟩ := hd
    unfold alookup at h
    split at h
    · exact Option.noConfusion h
    · rename_i hk
      simp only [aset, if_neg hk, List.cons_append, List.cons.injEq, true_and]
      exact ih h

/-! ## Inversion lemmas for successful handler runs -/

theorem initialize_challenge_ok {now : Int} {waldo : Pubkey} {id : String}
    {lat lon : Int} {dur rp : Nat} {c : Challenge}
    (h : initialize_challenge now waldo id lat lon dur rp = .ok c) :
    0 < dur ∧ dur ≤ 86400 ∧ 0 < rp ∧
    c = { challenge_id := id, waldo := waldo, claimed_lat := lat, claimed_lon := lon,
          start_time := now, deadline := now + (dur : Int), reward_pool := rp,
          status := .Active, participant_count := 0, vote_count := 0,
          valid_vote_count := 0, r_star := 0, r_star_threshold := 1000,
          rewards_distributed := false } := by
  unfold initialize_challenge at h
  repeat' split at h
  all_goals try exact Except.noConfusion h
  rename_i h1 h2 h3 h4
  cases Except.ok.inj h
  refine ⟨h1.1, h1.2, h2, ?_⟩
  simp [if_pos h2]

theorem stake_ok {now : Int} {c : Challenge} {ch : Pubkey} {id : String}
    {amt : Nat} {c2 : Challenge} {st : Stake}
    (h : stake now c ch id amt = .ok (c2, st)) :
    c.status = .Active ∧ now ≤ c.deadline ∧ 1000000 ≤ amt ∧
    c.participant_count < 20 ∧ c.reward_pool + amt ≤ U64_MAX ∧
    c2 = { c with reward_pool := c.reward_pool + amt,
                  participant_count := c.participant_count + 1 } ∧
    st = { challenger := ch, challenge_id := id, amount := amt,
           timestamp := now, slashed := false } := by
  unfold stake at h
  repeat' split at h
  all_goals try exact Except.noConfusion h
  rename_i h1 h2 h3 h4 os1 pool hpool os2 pc hpc
  obtain ⟨hpe, hple⟩ := checked_add_u64_some hpool
  obtain ⟨hpce, _⟩ := checked_add_u32_some hpc
  subst hpe
  subst hpce
  obtain ⟨hc2, hst⟩ := Prod.mk.injEq .. ▸ Except.ok.inj h
  exact ⟨h1, h2, h3, h4, hple, hc2.symm, hst.symm⟩

theorem submit_vote_ok {now : Int} {c : Challenge} {sa : Stake} {ch : Pubkey}
    {id cid : String} {b : Bool} {unc rtt : Nat} {c2 : Challenge} {v : Vote}
    (h : submit_vote now c sa ch id cid b unc rtt = .ok (c2, v)) :
    c.status = .Active ∧ c.deadline < now ∧ now ≤ c.deadline + 300 ∧
    sa.slashed = false ∧ unc ≤ 50000 ∧ 0 < rtt ∧ rtt ≤ 1000000 ∧
    c2 = { c with vote_count := c.vote_count + 1,
                  valid_vote_count :=
                    if b then c.valid_vote_count + 1 else c.valid_vote_count } ∧
    v = { challenger := ch, challenge_id := id, challenger_id := cid,
          is_valid := b, uncertainty := unc, min_rtt := rtt,
          timestamp := now, processed := false } := by
  unfold submit_vote at h
  repeat' split at h
  all_goals try exact Except.noConfusion h
  rename_i h1 h2 h3 h4 h5 h6 os1 vc hvc os2 vvc hvvc
  obtain ⟨hvce, _⟩ := checked_add_u32_some hvc
  subst hvce
  have hvvce : vvc = if b then c.valid_vote_count + 1 else c.valid_vote_count := by
    cases b with
    | false => simpa using (Option.some.inj hvvc).symm
    | true =>
      simp only [if_true]
      simp only [if_true] at hvvc
      exact (checked_add_u32_some hvvc).1
  subst hvvce
  obtain ⟨hc2, hv⟩ := Prod.mk.injEq .. ▸ Except.ok.inj h
  refine ⟨h1, by omega, by omega, ?_, h5, h6.1, h6.2, hc2.symm, hv.symm⟩
  exact Bool.not_eq_true _ ▸ h4

theorem finalize_challenge_ok {now : Int} {c : Challenge} {r : Nat} {c2 : Challenge}
    (h : finalize_challenge now c r = .ok c2) :
    c.status = .Active ∧ now > c.deadline + VOTING_WINDOW ∧
    ((c.participant_count < 3 ∧ c2 = { c with status := .InsufficientParticipants }) ∨
     (3 ≤ c.participant_count ∧
      c2 = { c with r_star := r, status := .Finalized })) := by
  unfold finalize_challenge at h
  repeat' split at h
  all_goals try exact Except.noConfusion h
  · rename_i h1 h2 h3
    exact ⟨h1, h2, Or.inl ⟨h3, (Except.ok.inj h).symm⟩⟩
  · rename_i h1 h2 h3
    exact ⟨h1, h2, Or.inr ⟨by omega, (Except.ok.inj h).symm⟩⟩

theorem claim_reward_ok {c : Challenge} {v : Vote} {c2 : Challenge} {v2 : Vote}
    {r : Nat} (h : claim_reward c v = .ok (c2, v2, r)) :
    c.status = .Finalized ∧ c.r_star ≤ c.r_star_threshold ∧ v.is_valid = true ∧
    0 < c.valid_vote_count ∧ r = c.reward_pool / c.valid_vote_count ∧
    r ≤ c.reward_pool ∧
    c2 = { c with
            reward_pool := c.reward_pool - r
            rewards_distributed :=
              if c.reward_pool - r = 0 then true else c.rewards_distributed } ∧
    v2 = { v with processed := true } := by
  unfold claim_reward at h
  repeat' split at h
  all_goals try exact Except.noConfusion h
  · rename_i h1 h2 h3 h4 hs1 rv hdiv hs2 pv hsub hz
    obtain ⟨hre, _⟩ := checked_div_u64_some hdiv
    obtain ⟨hpe, hple⟩ := checked_sub_u64_some hsub
    subst hre
    subst hpe
    obtain ⟨hc2, hrest⟩ := Prod.mk.injEq .. ▸ Except.ok.inj h
    obtain ⟨hv2, hr⟩ := Prod.mk.injEq .. ▸ hrest
    subst hr
    refine ⟨h1, h2, h3, h4, rfl, hple, ?_, hv2.symm⟩
    rw [if_pos hz]
    exact hc2.symm
  · rename_i h1 h2 h3 h4 hs1 rv hdiv hs2 pv hsub hz
    obtain ⟨hre, _⟩ := checked_div_u64_some hdiv
    obtain ⟨hpe, hple⟩ := checked_sub_u64_some hsub
    subst hre
    subst hpe
    obtain ⟨hc2, hrest⟩ := Prod.mk.injEq .. ▸ Except.ok.inj h
    obtain ⟨hv2, hr⟩ := Prod.mk.injEq .. ▸ hrest
    subst hr
    refine ⟨h1, h2, h3, h4, rfl, hple, ?_, hv2.symm⟩
    rw [if_neg hz]
    exact hc2.symm

theorem slash_ok {c : Challenge} {sa : Stake} {c2 : Challenge} {amt : Nat}
    (h : slash c sa = .ok (c2, amt)) :
    c.status = .Finalized ∧ c.reward_pool + sa.amount ≤ U64_MAX ∧
    c2 = { c with reward_pool := c.reward_pool + sa.amount } ∧
    amt = sa.amount := by
  unfold slash at h
  repeat' split at h
  all_goals try exact Except.noConfusion h
  rename_i h1 os1 pool hpool
  obtain ⟨hpe, hple⟩ := checked_add_u64_some hpool
  subst hpe
  obtain ⟨hc2, hamt⟩ := Prod.mk.injEq .. ▸ Except.ok.inj h
  exact ⟨h1, hple, hc2.symm, hamt.symm⟩

theorem refund_failed_challenge_ok {c : Challenge} {wa auth : Pubkey} {x : Nat}
    (h : refund_failed_challenge c wa auth = .ok x) :
    auth = wa ∧ wa = c.waldo ∧
    (c.status = .Finalized ∨ c.status = .InsufficientParticipants) ∧
    c.rewards_distributed = false ∧
    ¬ (c.status = .Finalized ∧ c.r_star ≤ c.r_star_threshold) ∧
    x = c.reward_pool := by
  unfold refund_failed_challenge at h
  repeat' split at h
  all_goals try exact Except.noConfusion h
  rename_i h1 h2 h3 h4 h5
  exact ⟨h1, h2, h3, Bool.not_eq_true _ ▸ h4, h5, (Except.ok.inj h).symm⟩

/-! ## The global invariant is preserved by every transaction -/

theorem inv_step {s : Chain} {now : Int} {op : Op} {s2 : Chain}
    (hi : Inv s) (h : step s now op = .ok s2) : Inv s2 := by
  cases op with
  | initOp waldo id lat lon dur rp =>
    simp only [step] at h
    cases hC : alookup s.challenges id with
    | some cc => rw [hC] at h; exact Except.noConfusion h
    | none =>
      rw [hC] at h
      dsimp only at h
      cases hH : initialize_challenge now waldo id lat lon dur rp with
      | error e => rw [hH] at h; exact Except.noConfusion h
      | ok c =>
        rw [hH] at h
        cases Except.ok.inj h
        obtain ⟨_, _, _, hcrec⟩ := initialize_challenge_ok hH
        refine ⟨hi.stakes_byId, hi.stakes_unslashed, ?_⟩
        intro p hp hd
        rcases mem_aset hp with h1 | h1
        · subst h1
          rw [hcrec] at hd
          exact Bool.noConfusion hd
        · exact hi.distributed_drained p h1 hd
  | stakeOp ch id amt =>
    simp only [step] at h
    cases hC : alookup s.challenges id with
    | none => rw [hC] at h; exact Except.noConfusion h
    | some cc =>
      rw [hC] at h
      cases hS : alookup s.stakes (StakeSeed.byId id, ch) with
      | some st0 => rw [hS] at h; exact Except.noConfusion h
      | none =>
        rw [hS] at h
        dsimp only at h
        cases hH : stake now cc ch id amt with
        | error e => rw [hH] at h; exact Except.noConfusion h
        | ok out =>
          obtain ⟨c2, st⟩ := out
          rw [hH] at h
          cases Except.ok.inj h
          obtain ⟨hst, _, _, _, _, hc2, hstake⟩ := stake_ok hH
          refine ⟨?_, ?_, ?_⟩
          · intro p hp
            rcases mem_aset hp with h1 | h1
            · subst h1; exact ⟨id, rfl⟩
            · exact hi.stakes_byId p h1
          · intro p hp
            rcases mem_aset hp with h1 | h1
            · subst h1; rw [hstake]
            · exact hi.stakes_unslashed p h1
          · intro p hp hd
            rcases mem_aset hp with h1 | h1
            · subst h1
              rw [hc2] at hd
              obtain ⟨_, hfin⟩ :=
                hi.distributed_drained (id, cc) (alookup_mem hC) hd
              rw [hst] at hfin
              exact ChallengeStatus.noConfusion hfin
            · exact hi.distributed_drained p h1 hd
  | voteOp ch id cid b unc rtt =>
    simp only [step] at h
    cases hC : alookup s.challenges id with
    | none => rw [hC] at h; exact Except.noConfusion h
    | some cc =>
      rw [hC] at h
      cases hS : alookup s.stakes (StakeSeed.byId id, ch) with
      | none => rw [hS] at h; exact Except.noConfusion h
      | some st =>
        rw [hS] at h
        cases hV : alookup s.votes (id, ch) with
        | some v0 => rw [hV] at h; exact Except.noConfusion h
        | none =>
          rw [hV] at h
          dsimp only at h
          cases hH : submit_vote now cc st ch id cid b unc rtt with
          | error e => rw [hH] at h; exact Except.noConfusion h
          | ok out =>
            obtain ⟨c2, v⟩ := out
            rw [hH] at h
            cases Except.ok.inj h
            obtain ⟨hst, _, _, _, _, _, _, hc2, _⟩ := submit_vote_ok hH
            refine ⟨hi.stakes_byId, hi.stakes_unslashed, ?_⟩
            intro p hp hd
            rcases mem_aset hp with h1 | h1
            · subst h1
              rw [hc2] at hd
              obtain ⟨_, hfin⟩ :=
                hi.distributed_drained (id, cc) (alookup_mem hC) hd
              rw [hst] at hfin
              exact ChallengeStatus.noConfusion hfin
            · exact hi.distributed_drained p h1 hd
  | finalizeOp auth id r =>
    simp only [step] at h
    cases hC : alookup s.challenges id with
    | none => rw [hC] at h; exact Except.noConfusion h
    | some cc =>
      rw [hC] at h
      dsimp only at h
      split at h
      · cases hH : finalize_challenge now cc r with
        | error e => rw [hH] at h; exact Except.noConfusion h
        | ok c2 =>
          rw [hH] at h
          cases Except.ok.inj h
          obtain ⟨hst, _, hcases⟩ := finalize_challenge_ok hH
          refine ⟨hi.stakes_byId, hi.stakes_unslashed, ?_⟩
          intro p hp hd
          rcases mem_aset hp with h1 | h1
          · subst h1
            have hdcc : cc.rewards_distributed = true := by
              rcases hcases with ⟨_, hrec⟩ | ⟨_, hrec⟩ <;> rw [hrec] at hd <;> exact hd
            obtain ⟨_, hfin⟩ :=
              hi.distributed_drained (id, cc) (alookup_mem hC) hdcc
            rw [hst] at hfin
            exact ChallengeStatus.noConfusion hfin
          · exact hi.distributed_drained p h1 hd
      · exact Except.noConfusion h
  | claimOp w id =>
    simp only [step] at h
    cases hC : alookup s.challenges id with
    | none => rw [hC] at h; exact Except.noConfusion h
    | some cc =>
      rw [hC] at h
      cases hV : alookup s.votes (id, w) with
      | none => rw [hV] at h; exact Except.noConfusion h
      | some v =>
        rw [hV] at h
        dsimp only at h
        split at h
        · split at h
          · exact Except.noConfusion h
          · cases hH : claim_reward cc v with
            | error e => rw [hH] at h; exact Except.noConfusion h
            | ok out =>
              obtain ⟨c2, v2, r⟩ := out
              rw [hH] at h
              cases Except.ok.inj h
              obtain ⟨hst, _, _, _, hr, _, hc2, _⟩ := claim_reward_ok hH
              refine ⟨hi.stakes_byId, hi.stakes_unslashed, ?_⟩
              intro p hp hd
              rcases mem_aset hp with h1 | h1
              · subst h1
                rw [hc2]
                rw [hc2] at hd
                by_cases hz : cc.reward_pool - r = 0
                · exact ⟨hz, hst⟩
                · rw [if_neg hz] at hd
                  obtain ⟨hpool0, _⟩ :=
                    hi.distributed_drained (id, cc) (alookup_mem hC) hd
                  rw [hr, hpool0] at hz
                  simp at hz
              · exact hi.distributed_drained p h1 hd
        · exact Except.noConfusion h
  | refundOp auth wa id =>
    simp only [step] at h
    cases hC : alookup s.challenges id with
    | none => rw [hC] at h; exact Except.noConfusion h
    | some cc =>
      rw [hC] at h
      dsimp only at h
      cases hH : refund_failed_challenge cc wa auth with
      | error e => rw [hH] at h; exact Except.noConfusion h
      | ok x =>
        rw [hH] at h
        cases Except.ok.inj h
        refine ⟨hi.stakes_byId, hi.stakes_unslashed, ?_⟩
        intro p hp hd
        exact hi.distributed_drained p (mem_aremove hp) hd
  | slashOp auth id chp =>
    simp only [step] at h
    cases hC : alookup s.challenges id with
    | none => rw [hC] at h; exact Except.noConfusion h
    | some cc =>
      rw [hC] at h
      cases hS : alookup s.stakes (StakeSeed.byChallengeAddress id, chp) with
      | none => rw [hS] at h; exact Except.noConfusion h
      | some st =>
        obtain ⟨cid, hkey⟩ :=
          hi.stakes_byId ((StakeSeed.byChallengeAddress id, chp), st) (alookup_mem hS)
        exact StakeSeed.noConfusion hkey

theorem reachable_inv {s : Chain} (h : Reachable s) : Inv s := by
  induction h with
  | base =>
    refine ⟨?_, ?_, ?_⟩
    · intro p hp
      exact absurd hp (List.not_mem_nil p)
    · intro p hp
      exact absurd hp (List.not_mem_nil p)
    · intro p hp
      exact absurd hp (List.not_mem_nil p)
  | tx hs hstep ih => exact inv_step ih hstep

theorem runTrace_reachable {s s2 : Chain} {tr : List (Int × Op)}
    (hs : Reachable s) (h : runTrace s tr = .ok s2) : Reachable s2 := by
  induction tr generalizing s with
  | nil =>
    cases Except.ok.inj h
    exact hs
  | cons p rest ih =>
    obtain ⟨now, op⟩ := p
    unfold runTrace at h
    cases hstep : step s now op with
    | error e => rw [hstep] at h; exact Except.noConfusion h
    | ok s3 =>
      rw [hstep] at h
      exact ih (Reachable.tx hs hstep) h

theorem reachable_sDrained : Reachable sDrained :=
  runTrace_reachable Reachable.base
    (rfl : runTrace Chain.empty traceDrained = .ok sDrained)

/-! ## Claim theorems -/

/-- Claim C1 (code_bug evidence): in the §8 scenario — challenge created
with a 3000000 pool, three stakes of 1000000 (pool 6000000), three
`is_valid` votes, finalization with `r_star = 500 ≤ 1000` — the three
`claim_reward` calls do NOT each transfer 2000000.  The handler divides
the *current* pool by `valid_vote_count` at every claim, so the pool
goes 6000000 → 4000000 → 2666667 → 1777778 (transfers 2000000, 1333333,
888889), never reaches 0, and `rewards_distributed` stays `false`. -/
theorem scenario_claims_drift :
    runTrace Chain.empty traceScenario = .ok sFinalized ∧
    Option.map Challenge.reward_pool (alookup sFinalized.challenges "c") =
      some 6000000 ∧
    Option.map Challenge.status (alookup sFinalized.challenges "c") =
      some .Finalized ∧
    step sFinalized 450 (.claimOp 1 "c") = .ok sClaim1 ∧
    step sClaim1 451 (.claimOp 2 "c") = .ok sClaim2 ∧
    step sClaim2 452 (.claimOp 3 "c") = .ok sClaim3 ∧
    Option.map Challenge.reward_pool (alookup sClaim1.challenges "c") =
      some 4000000 ∧
    Option.map Challenge.reward_pool (alookup sClaim2.challenges "c") =
      some 2666667 ∧
    Option.map Challenge.reward_pool (alookup sClaim3.challenges "c") =
      some 1777778 ∧
    Option.map Challenge.rewards_distributed (alookup sClaim3.challenges "c") =
      some false :=
  ⟨rfl, rfl, rfl, rfl, rfl, rfl, rfl, rfl, rfl, rfl⟩

/-- Claim C2 counterexample: a successful `slash` on a finalized
challenge with pool 6000000 and a 1000000 stake yields pool 7000000 —
`slash` does move balances (it folds the closed stake account's amount
into the pool), contradicting the claimed no-balance-movement,
flag-only effect. -/
theorem slash_changes_pool_cx :
    slash cFin stFin = .ok ({ cFin with reward_pool := 7000000 }, 1000000) ∧
    cFin.reward_pool = 6000000 ∧ (7000000 : Nat) ≠ 6000000 :=
  ⟨rfl, rfl, by decide⟩

/-- Claim C2 (amended): for every challenge in status `Finalized` and
every stake record the `Slash` accounts struct resolves, a successful
`slash` closes the stake record (its lamports go to the challenge
account) and adds the stake's `amount` to `reward_pool`; no `slashed`
flag is written. -/
theorem slash_pools_stake_amount (c : Challenge) (sa : Stake)
    (h1 : c.status = .Finalized) (h2 : c.reward_pool + sa.amount ≤ U64_MAX) :
    slash c sa = .ok ({ c with reward_pool := c.reward_pool + sa.amount },
                      sa.amount) := by
  simp [slash, h1, checked_add_u64, h2]

theorem slash_pools_stake_amount_witness :
    slash cFin stFin =
      .ok ({ cFin with reward_pool := cFin.reward_pool + stFin.amount },
           stFin.amount) :=
  slash_pools_stake_amount cFin stFin (by decide) (by decide)

/-- Claim C5: `finalize` fails with `ChallengeNotActive` off the `Active`
status, fails (with `ChallengeExpired`) unless now is strictly after
`deadline + VOTING_WINDOW`, moves an under-subscribed challenge
(`participant_count < 3`) to `InsufficientParticipants` storing no
verdict, and otherwise stores the supplied `r_star` and moves to
`Finalized`. -/
theorem finalize_transition_spec (c : Challenge) (now : Int) (r : Nat) :
    (¬ c.status = .Active →
      finalize_challenge now c r = .error .ChallengeNotActive) ∧
    (c.status = .Active → ¬ (now > c.deadline + VOTING_WINDOW) →
      finalize_challenge now c r = .error .ChallengeExpired) ∧
    (c.status = .Active → now > c.deadline + VOTING_WINDOW →
      c.participant_count < 3 →
      finalize_challenge now c r =
        .ok { c with status := .InsufficientParticipants }) ∧
    (c.status = .Active → now > c.deadline + VOTING_WINDOW →
      ¬ (c.participant_count < 3) →
      finalize_challenge now c r =
        .ok { c with r_star := r, status := .Finalized }) := by
  refine ⟨?_, ?_, ?_, ?_⟩
  · intro h1
    simp [finalize_challenge, h1]
  · intro h1 h2
    simp [finalize_challenge, h1, h2]
  · intro h1 h2 h3
    simp [finalize_challenge, h1, h2, h3]
  · intro h1 h2 h3
    simp [finalize_challenge, h1, h2, h3]

theorem finalize_transition_spec_witness :
    finalize_challenge 500 cFin 5 = .error .ChallengeNotActive ∧
    finalize_challenge 200 cAct 5 = .error .ChallengeExpired ∧
    finalize_challenge 401 cAct 5 =
      .ok { cAct with status := .InsufficientParticipants } ∧
    finalize_challenge 401 cAct3 5 =
      .ok { cAct3 with r_star := 5, status := .Finalized } :=
  ⟨(finalize_transition_spec cFin 500 5).1 (by decide),
   (finalize_transition_spec cAct 200 5).2.1 (by decide) (by decide),
   (finalize_transition_spec cAct 401 5).2.2.1 (by decide) (by decide) (by decide),
   (finalize_transition_spec cAct3 401 5).2.2.2 (by decide) (by decide) (by decide)⟩

/-- Claim C6 counterexample: on a challenge that is not `Active`
(here `Finalized`) at a time before the deadline, `submit_vote` fails
with `ChallengeNotActive`, not with `VotingNotOpen` — the status check
runs before the window check, so the claimed error attribution fails
for non-`Active` challenges. -/
theorem vote_window_error_cx :
    submit_vote 50 cFin stFin 1 "c" "x" true 100 1000 =
      .error .ChallengeNotActive ∧
    (50 : Int) ≤ cFin.deadline ∧
    PolocError.ChallengeNotActive ≠ PolocError.VotingNotOpen :=
  ⟨rfl, by decide, by decide⟩

/-- Claim C6 (amended): outside the half-open window
`(deadline, deadline + 300]` every `submit_vote` call fails, for any
`is_valid`/`uncertainty`; when the challenge is `Active` the error is
`VotingNotOpen` for `now ≤ deadline` and `VotingClosed` for
`now > deadline + 300`, and whenever the challenge is not `Active` the
error is `ChallengeNotActive` instead. -/
theorem vote_window_spec_amended (now : Int) (c : Challenge) (sa : Stake)
    (ch : Pubkey) (id cid : String) (b : Bool) (unc rtt : Nat) :
    (now ≤ c.deadline ∨ now > c.deadline + 300 →
      ∃ e, submit_vote now c sa ch id cid b unc rtt = .error e) ∧
    (c.status = .Active → now ≤ c.deadline →
      submit_vote now c sa ch id cid b unc rtt = .error .VotingNotOpen) ∧
    (c.status = .Active → now > c.deadline + 300 →
      submit_vote now c sa ch id cid b unc rtt = .error .VotingClosed) ∧
    (¬ c.status = .Active →
      submit_vote now c sa ch id cid b unc rtt = .error .ChallengeNotActive) := by
  refine ⟨?_, ?_, ?_, ?_⟩
  · intro hw
    by_cases hs : c.status = .Active
    · rcases hw with hw | hw
      · exact ⟨.VotingNotOpen, by simp [submit_vote, hs, hw]⟩
      · refine ⟨.VotingClosed, ?_⟩
        have hnle : ¬ (now ≤ c.deadline) := by omega
        simp [submit_vote, hs, hw, hnle]
    · exact ⟨.ChallengeNotActive, by simp [submit_vote, hs]⟩
  · intro hs hw
    simp [submit_vote, hs, hw]
  · intro hs hw
    have hnle : ¬ (now ≤ c.deadline) := by omega
    simp [submit_vote, hs, hw, hnle]
  · intro hs
    simp [submit_vote, hs]

theorem vote_window_spec_amended_witness :
    (∃ e, submit_vote 50 cAct stFin 1 "c" "x" true 100 1000 = .error e) ∧
    submit_vote 50 cAct stFin 1 "c" "x" true 100 1000 =
      .error .VotingNotOpen ∧
    submit_vote 401 cAct stFin 1 "c" "x" true 100 1000 =
      .error .VotingClosed ∧
    submit_vote 50 cFin stFin 1 "c" "x" true 100 1000 =
      .error .ChallengeNotActive :=
  ⟨(vote_window_spec_amended 50 cAct stFin 1 "c" "x" true 100 1000).1
     (Or.inl (by decide)),
   (vote_window_spec_amended 50 cAct stFin 1 "c" "x" true 100 1000).2.1
     (by decide) (by decide),
   (vote_window_spec_amended 401 cAct stFin 1 "c" "x" true 100 1000).2.2.1
     (by decide) (by decide),
   (vote_window_spec_amended 50 cFin stFin 1 "c" "x" true 100 1000).2.2.2
     (by decide)⟩

/-- Claim C7: if a winner's `claim_reward` succeeds, a second
`claim_reward` by the same winner on the resulting state fails with
`AlreadyClaimed` (a failed transaction leaves the store, and hence
`reward_pool`, untouched), so the pool is debited exactly once per
winner. -/
theorem claim_twice_fails {s : Chain} {now now2 : Int} {w : Pubkey}
    {id : String} {s2 : Chain}
    (h : step s now (.claimOp w id) = .ok s2) :
    step s2 now2 (.claimOp w id) = .error (.poloc .AlreadyClaimed) := by
  simp only [step] at h
  cases hC : alookup s.challenges id with
  | none => rw [hC] at h; exact Except.noConfusion h
  | some c =>
    rw [hC] at h
    cases hV : alookup s.votes (id, w) with
    | none => rw [hV] at h; exact Except.noConfusion h
    | some v =>
      rw [hV] at h
      dsimp only at h
      split at h
      · rename_i hw
        split at h
        · exact Except.noConfusion h
        · cases hH : claim_reward c v with
          | error e => rw [hH] at h; exact Except.noConfusion h
          | ok out =>
            obtain ⟨c2, v2, r⟩ := out
            rw [hH] at h
            cases Except.ok.inj h
            obtain ⟨_, _, _, _, _, _, _, hv2⟩ := claim_reward_ok hH
            simp [step, alookup_aset_self, hv2, hw]
      · exact Except.noConfusion h

theorem claim_twice_fails_witness :
    step sClaim1 460 (.claimOp 1 "c") = .error (.poloc .AlreadyClaimed) :=
  claim_twice_fails
    (rfl : step sFinalized 450 (.claimOp 1 "c") = .ok sClaim1)

/-- Claim C10: on a finalized, passed challenge with `reward_pool = 0`
and a positive `valid_vote_count`, a claim by a voter with an
unprocessed `is_valid` vote succeeds, transfers 0 lamports, marks the
vote processed and leaves the pool at 0 — `claim_reward` never reads
`rewards_distributed`, so the flag (true in the witness) does not block
further claims. -/
theorem zero_pool_claim_succeeds {s : Chain} {id : String} {c : Challenge}
    {w : Pubkey} {v : Vote} {now : Int}
    (hc : alookup s.challenges id = some c)
    (hst : c.status = .Finalized) (hpass : c.r_star ≤ c.r_star_threshold)
    (hpool : c.reward_pool = 0) (hvvc : 0 < c.valid_vote_count)
    (hv : alookup s.votes (id, w) = some v)
    (hw : v.challenger = w) (hvalid : v.is_valid = true)
    (hproc : v.processed = false) :
    claim_reward c v =
      .ok ({ c with reward_pool := 0, rewards_distributed := true },
           { v with processed := true }, 0) ∧
    step s now (.claimOp w id) =
      .ok { s with
              challenges := aset s.challenges id
                { c with reward_pool := 0, rewards_distributed := true },
              votes := aset s.votes (id, w) { v with processed := true } } := by
  have hne : c.valid_vote_count ≠ 0 := Nat.pos_iff_ne_zero.mp hvvc
  have hcr : claim_reward c v =
      .ok ({ c with reward_pool := 0, rewards_distributed := true },
           { v with processed := true }, 0) := by
    simp [claim_reward, checked_div_u64, checked_sub_u64, hst, hpass,
          hvalid, hvvc, hpool, hne]
  refine ⟨hcr, ?_⟩
  simp [step, hc, hv, hw, hproc, hcr]

theorem zero_pool_claim_succeeds_witness :
    claim_reward cZero vZero =
      .ok ({ cZero with reward_pool := 0, rewards_distributed := true },
           { vZero with processed := true }, 0) ∧
    step sZero 500 (.claimOp 1 "c") =
      .ok { sZero with
              challenges := aset sZero.challenges "c"
                { cZero with reward_pool := 0, rewards_distributed := true },
              votes := aset sZero.votes ("c", 1)
                { vZero with processed := true } } :=
  zero_pool_claim_succeeds rfl rfl (by decide) rfl (by decide) rfl rfl rfl rfl

theorem submit_vote_ne_slashed {now : Int} {c : Challenge} {sa : Stake}
    {ch : Pubkey} {id cid : String} {b : Bool} {unc rtt : Nat}
    (h : sa.slashed = false) :
    submit_vote now c sa ch id cid b unc rtt ≠ .error .StakeSlashed := by
  intro hcontra
  unfold submit_vote at hcontra
  repeat' split at hcontra
  all_goals first
    | exact Except.noConfusion hcontra
    | exact PolocError.noConfusion (Except.error.inj hcontra)
    | simp_all

/-- Claim C4: stake.rs creates stake accounts under the seed
`[b"stake", challenge_id bytes, challenger]` while slash.rs resolves
them under `[b"stake", challenge address, challenger]`; in every
reachable state all stake accounts sit under the former key, so a
`slash` transaction never resolves a stake account and always fails —
no stake created through `stake` can ever be slashed. -/
theorem slash_never_resolves_stakes {s : Chain} (hs : Reachable s) :
    (∀ p ∈ s.stakes, ∃ cid, p.1.1 = StakeSeed.byId cid) ∧
    ∀ (now : Int) (auth : Pubkey) (id : String) (chp : Pubkey),
      ∃ e, step s now (.slashOp auth id chp) = .error e := by
  have hi := reachable_inv hs
  refine ⟨hi.stakes_byId, ?_⟩
  intro now auth id chp
  cases hC : alookup s.challenges id with
  | none => exact ⟨.accountNotFound, by simp [step, hC]⟩
  | some cc =>
    cases hS : alookup s.stakes (StakeSeed.byChallengeAddress id, chp) with
    | some st =>
      obtain ⟨cid, hk⟩ :=
        hi.stakes_byId ((StakeSeed.byChallengeAddress id, chp), st)
          (alookup_mem hS)
      exact StakeSeed.noConfusion hk
    | none => exact ⟨.accountNotFound, by simp [step, hC, hS]⟩

theorem slash_never_resolves_stakes_witness :
    ∃ e, step sDrained 500 (.slashOp 9 "c" 1) = .error e :=
  (slash_never_resolves_stakes reachable_sDrained).2 500 9 "c" 1

/-- Claim C9: `stake` initializes `slashed = false` and no instruction
ever writes `true` (slash.rs closes the account instead of flagging),
so in every reachable state every stake account has `slashed = false`
and a `submit_vote` transaction can never fail with `StakeSlashed`. -/
theorem stakes_never_slashed {s : Chain} (hs : Reachable s) :
    (∀ p ∈ s.stakes, p.2.slashed = false) ∧
    ∀ (now : Int) (ch : Pubkey) (id cid : String) (b : Bool) (unc rtt : Nat),
      step s now (.voteOp ch id cid b unc rtt) ≠
        .error (.poloc .StakeSlashed) := by
  have hi := reachable_inv hs
  refine ⟨hi.stakes_unslashed, ?_⟩
  intro now ch id cid b unc rtt hcontra
  simp only [step] at hcontra
  cases hC : alookup s.challenges id with
  | none =>
    rw [hC] at hcontra
    dsimp only at hcontra
    exact TxError.noConfusion (Except.error.inj hcontra)
  | some cc =>
    rw [hC] at hcontra
    cases hS : alookup s.stakes (StakeSeed.byId id, ch) with
    | none =>
      rw [hS] at hcontra
      dsimp only at hcontra
      exact TxError.noConfusion (Except.error.inj hcontra)
    | some st =>
      rw [hS] at hcontra
      cases hV : alookup s.votes (id, ch) with
      | some v0 =>
        rw [hV] at hcontra
        dsimp only at hcontra
        exact TxError.noConfusion (Except.error.inj hcontra)
      | none =>
        rw [hV] at hcontra
        dsimp only at hcontra
        have hsl : st.slashed = false :=
          hi.stakes_unslashed ((StakeSeed.byId id, ch), st) (alookup_mem hS)
        cases hH : submit_vote now cc st ch id cid b unc rtt with
        | error e =>
          rw [hH] at hcontra
          dsimp only at hcontra
          have he : e = .StakeSlashed :=
            TxError.poloc.inj (Except.error.inj hcontra)
          exact submit_vote_ne_slashed hsl (he ▸ hH)
        | ok out =>
          rw [hH] at hcontra
          obtain ⟨c2, v⟩ := out
          exact Except.noConfusion hcontra

theorem stakes_never_slashed_witness :
    step sDrained 500 (.voteOp 2 "c" "x" true 100 1000) ≠
      .error (.poloc .StakeSlashed) :=
  (stakes_never_slashed reachable_sDrained).2 500 2 "c" "x" true 100 1000

/-- Claim C3: in every reachable state, once a challenge has
`rewards_distributed = true`, any claim, refund or slash transaction on
it either fails (leaving the store untouched) or succeeds leaving
`reward_pool` unchanged (claims then transfer 0 from the empty pool;
refund is blocked by `RewardsAlreadyDistributed`; slash never resolves
its stake account). -/
theorem distributed_pool_frozen {s : Chain} {id : String} {c : Challenge}
    (hs : Reachable s) (hc : alookup s.challenges id = some c)
    (hd : c.rewards_distributed = true) :
    ∀ op : Op, settlesPool id op → ∀ now : Int,
      (∃ e, step s now op = .error e) ∨
      ∃ s2, step s now op = .ok s2 ∧
        Option.map Challenge.reward_pool (alookup s2.challenges id) =
          some c.reward_pool := by
  have hi := reachable_inv hs
  have hpool : c.reward_pool = 0 :=
    (hi.distributed_drained (id, c) (alookup_mem hc) hd).1
  intro op hsp now
  cases op with
  | claimOp w i =>
    have hiid : i = id := hsp
    subst hiid
    cases hV : alookup s.votes (i, w) with
    | none => exact Or.inl ⟨.accountNotFound, by simp [step, hc, hV]⟩
    | some v =>
      by_cases hw : v.challenger = w
      · by_cases hp : v.processed
        · exact Or.inl ⟨.poloc .AlreadyClaimed, by simp [step, hc, hV, hw, hp]⟩
        · cases hH : claim_reward c v with
          | error e =>
            exact Or.inl ⟨.poloc e, by simp [step, hc, hV, hw, hp, hH]⟩
          | ok out =>
            obtain ⟨c2, v2, r⟩ := out
            refine Or.inr ⟨{ s with
                challenges := aset s.challenges i c2,
                votes := aset s.votes (i, w) v2 }, ?_, ?_⟩
            · simp [step, hc, hV, hw, hp, hH]
            · obtain ⟨_, _, _, _, hr, _, hc2, _⟩ := claim_reward_ok hH
              rw [alookup_aset_self, hc2]
              simp [hr, hpool]
      · exact Or.inl ⟨.poloc .Unauthorized, by simp [step, hc, hV, hw]⟩
  | refundOp a wa i =>
    have hiid : i = id := hsp
    subst hiid
    cases hH : refund_failed_challenge c wa a with
    | error e => exact Or.inl ⟨.poloc e, by simp [step, hc, hH]⟩
    | ok x =>
      obtain ⟨_, _, _, hrd, _, _⟩ := refund_failed_challenge_ok hH
      rw [hd] at hrd
      exact Bool.noConfusion hrd
  | slashOp a i chp =>
    have hiid : i = id := hsp
    subst hiid
    cases hS : alookup s.stakes (StakeSeed.byChallengeAddress i, chp) with
    | some st =>
      obtain ⟨cid, hk⟩ :=
        hi.stakes_byId ((StakeSeed.byChallengeAddress i, chp), st)
          (alookup_mem hS)
      exact StakeSeed.noConfusion hk
    | none => exact Or.inl ⟨.accountNotFound, by simp [step, hc, hS]⟩
  | initOp waldo i lat lon dur rp => exact hsp.elim
  | stakeOp ch i amt => exact hsp.elim
  | voteOp ch i cid b unc rtt => exact hsp.elim
  | finalizeOp a i r => exact hsp.elim

theorem distributed_pool_frozen_witness :
    (∃ e, step sDrained 500 (.refundOp 9 9 "c") = .error e) ∨
    ∃ s2, step sDrained 500 (.refundOp 9 9 "c") = .ok s2 ∧
      Option.map Challenge.reward_pool (alookup s2.challenges "c") =
        some cDrained.reward_pool :=
  distributed_pool_frozen reachable_sDrained
    (rfl : alookup sDrained.challenges "c" = some cDrained)
    (rfl : cDrained.rewards_distributed = true)
    (.refundOp 9 9 "c") rfl 500

/-! ## Tally counting lemmas (for claim C8) -/

theorem mem_stakerList {l : List ((StakeSeed × Pubkey) × Stake)} {id : String}
    {ch : Pubkey} :
    ch ∈ stakerList l id ↔ ∃ st, ((StakeSeed.byId id, ch), st) ∈ l := by
  constructor
  · intro h
    obtain ⟨p, hp, hpe⟩ := List.mem_map.mp h
    obtain ⟨hpl, hpf⟩ := List.mem_filter.mp hp
    have h1 : p.1.1 = StakeSeed.byId id := of_decide_eq_true hpf
    refine ⟨p.2, ?_⟩
    have h2 : p.1 = (StakeSeed.byId id, ch) := Prod.ext h1 hpe
    rw [← h2]
    exact hpl
  · intro hex
    obtain ⟨st, hm⟩ := hex
    apply List.mem_map.mpr
    refine ⟨((StakeSeed.byId id, ch), st), ?_, rfl⟩
    exact List.mem_filter.mpr ⟨hm, by simp⟩

theorem mem_voterList {l : List ((String × Pubkey) × Vote)} {id : String}
    {ch : Pubkey} :
    ch ∈ voterList l id ↔ ∃ v, ((id, ch), v) ∈ l := by
  constructor
  · intro h
    obtain ⟨p, hp, hpe⟩ := List.mem_map.mp h
    obtain ⟨hpl, hpf⟩ := List.mem_filter.mp hp
    have h1 : p.1.1 = id := of_decide_eq_true hpf
    refine ⟨p.2, ?_⟩
    have h2 : p.1 = (id, ch) := Prod.ext h1 hpe
    rw [← h2]
    exact hpl
  · intro hex
    obtain ⟨v, hm⟩ := hex
    apply List.mem_map.mpr
    refine ⟨((id, ch), v), ?_, rfl⟩
    exact List.mem_filter.mpr ⟨hm, by simp⟩

theorem stakerList_aset_same {l : List ((StakeSeed × Pubkey) × Stake)}
    {id : String} {ch : Pubkey} {st : Stake}
    (h : alookup l (StakeSeed.byId id, ch) = none) :
    stakerList (aset l (StakeSeed.byId id, ch) st) id =
      stakerList l id ++ [ch] := by
  rw [aset_eq_append h]
  simp [stakerList]

theorem stakerList_aset_other {l : List ((StakeSeed × Pubkey) × Stake)}
    {id id2 : String} {ch : Pubkey} {st : Stake} (hne : id2 ≠ id)
    (h : alookup l (StakeSeed.byId id2, ch) = none) :
    stakerList (aset l (StakeSeed.byId id2, ch) st) id = stakerList l id := by
  rw [aset_eq_append h]
  simp [stakerList, hne]

theorem voterList_aset_same {l : List ((String × Pubkey) × Vote)}
    {id : String} {ch : Pubkey} {v : Vote}
    (h : alookup l (id, ch) = none) :
    voterList (aset l (id, ch) v) id = voterList l id ++ [ch] := by
  rw [aset_eq_append h]
  simp [voterList]

theorem voterList_aset_other {l : List ((String × Pubkey) × Vote)}
    {id id2 : String} {ch : Pubkey} {v : Vote} (hne : id2 ≠ id)
    (h : alookup l (id2, ch) = none) :
    voterList (aset l (id2, ch) v) id = voterList l id := by
  rw [aset_eq_append h]
  simp [voterList, hne]

theorem tallyInv_stake {s : Chain} {now : Int} {ch : Pubkey} {id2 : String}
    {amt : Nat} {s2 : Chain} {id : String}
    (ht : TallyInv s id) (h : step s now (.stakeOp ch id2 amt) = .ok s2) :
    TallyInv s2 id := by
  simp only [step] at h
  cases hC : alookup s.challenges id2 with
  | none => rw [hC] at h; exact Except.noConfusion h
  | some cc =>
    rw [hC] at h
    cases hS : alookup s.stakes (StakeSeed.byId id2, ch) with
    | some st0 => rw [hS] at h; exact Except.noConfusion h
    | none =>
      rw [hS] at h
      dsimp only at h
      cases hH : stake now cc ch id2 amt with
      | error e => rw [hH] at h; exact Except.noConfusion h
      | ok out =>
        obtain ⟨c2, st⟩ := out
        rw [hH] at h
        cases Except.ok.inj h
        obtain ⟨_, _, _, _, _, hc2, _⟩ := stake_ok hH
        by_cases hid : id2 = id
        · subst hid
          have hsk : stakerList (aset s.stakes (StakeSeed.byId id2, ch) st) id2 =
              stakerList s.stakes id2 ++ [ch] := stakerList_aset_same hS
          have hch : ch ∉ stakerList s.stakes id2 := by
            intro hmem
            obtain ⟨st2, hm⟩ := mem_stakerList.mp hmem
            obtain ⟨b2, hb2⟩ := alookup_isSome_of_mem hm
            rw [hS] at hb2
            exact Option.noConfusion hb2
          constructor
          · intro c hcl
            dsimp only at hcl
            rw [alookup_aset_self] at hcl
            cases Option.some.inj hcl
            obtain ⟨hpc, hvc, hvv⟩ := ht.counts cc hC
            dsimp only
            rw [hsk, hc2]
            refine ⟨?_, ?_, ?_⟩
            · simp [hpc]
            · simpa using hvc
            · simpa using hvv
          · dsimp only
            rw [hsk]
            intro p hp
            exact List.mem_append_left _ (ht.votersStaked p hp)
          · dsimp only
            rw [hsk]
            exact (ht.nodupStakers).append (List.nodup_singleton ch)
              (List.disjoint_singleton.mpr hch)
          · exact ht.nodupVoters
        · have hsk : stakerList (aset s.stakes (StakeSeed.byId id2, ch) st) id =
              stakerList s.stakes id := stakerList_aset_other hid hS
          constructor
          · intro c hcl
            dsimp only at hcl
            rw [alookup_aset_ne (Ne.symm hid)] at hcl
            obtain ⟨hpc, hvc, hvv⟩ := ht.counts c hcl
            dsimp only
            rw [hsk]
            exact ⟨hpc, hvc, hvv⟩
          · dsimp only
            rw [hsk]
            exact ht.votersStaked
          · dsimp only
            rw [hsk]
            exact ht.nodupStakers
          · exact ht.nodupVoters

theorem tallyInv_vote {s : Chain} {now : Int} {ch : Pubkey} {id2 cid : String}
    {b : Bool} {unc rtt : Nat} {s2 : Chain} {id : String}
    (ht : TallyInv s id)
    (h : step s now (.voteOp ch id2 cid b unc rtt) = .ok s2) :
    TallyInv s2 id := by
  simp only [step] at h
  cases hC : alookup s.challenges id2 with
  | none => rw [hC] at h; exact Except.noConfusion h
  | some cc =>
    rw [hC] at h
    cases hS : alookup s.stakes (StakeSeed.byId id2, ch) with
    | none => rw [hS] at h; exact Except.noConfusion h
    | some sa =>
      rw [hS] at h
      cases hV : alookup s.votes (id2, ch) with
      | some v0 => rw [hV] at h; exact Except.noConfusion h
      | none =>
        rw [hV] at h
        dsimp only at h
        cases hH : submit_vote now cc sa ch id2 cid b unc rtt with
        | error e => rw [hH] at h; exact Except.noConfusion h
        | ok out =>
          obtain ⟨c2, v⟩ := out
          rw [hH] at h
          cases Except.ok.inj h
          obtain ⟨_, _, _, _, _, _, _, hc2, _⟩ := submit_vote_ok hH
          by_cases hid : id2 = id
          · subst hid
            have hvk : voterList (aset s.votes (id2, ch) v) id2 =
                voterList s.votes id2 ++ [ch] := voterList_aset_same hV
            have hch : ch ∉ voterList s.votes id2 := by
              intro hmem
              obtain ⟨v2, hm⟩ := mem_voterList.mp hmem
              obtain ⟨b2, hb2⟩ := alookup_isSome_of_mem hm
              rw [hV] at hb2
              exact Option.noConfusion hb2
            have hcs : ch ∈ stakerList s.stakes id2 :=
              mem_stakerList.mpr ⟨sa, alookup_mem hS⟩
            constructor
            · intro c hcl
              dsimp only at hcl
              rw [alookup_aset_self] at hcl
              cases Option.some.inj hcl
              obtain ⟨hpc, hvc, hvv⟩ := ht.counts cc hC
              dsimp only
              rw [hvk, hc2]
              refine ⟨?_, ?_, ?_⟩
              · simpa using hpc
              · simp [hvc]
              · cases b with
                | true => simpa using Nat.succ_le_succ hvv
                | false => simpa using Nat.le_succ_of_le hvv
            · dsimp only
              rw [hvk]
              intro p hp
              rcases List.mem_append.mp hp with h1 | h1
              · exact ht.votersStaked p h1
              · rcases List.mem_singleton.mp h1 with rfl
                exact hcs
            · exact ht.nodupStakers
            · dsimp only
              rw [hvk]
              exact (ht.nodupVoters).append (List.nodup_singleton ch)
                (List.disjoint_singleton.mpr hch)
          · have hvk : voterList (aset s.votes (id2, ch) v) id =
                voterList s.votes id := voterList_aset_other hid hV
            constructor
            · intro c hcl
              dsimp only at hcl
              rw [alookup_aset_ne (Ne.symm hid)] at hcl
              obtain ⟨hpc, hvc, hvv⟩ := ht.counts c hcl
              dsimp only
              rw [hvk]
              exact ⟨hpc, hvc, hvv⟩
            · dsimp only
              rw [hvk]
              exact ht.votersStaked
            · exact ht.nodupStakers
            · dsimp only
              rw [hvk]
              exact ht.nodupVoters

theorem tallyInv_svreach {s0 s : Chain} {id : String} (h0 : TallyInv s0 id)
    (h : SVReach s0 s) : TallyInv s id := by
  induction h with
  | base => exact h0
  | stakeTx hs hstep ih => exact tallyInv_stake ih hstep
  | voteTx hs hstep ih => exact tallyInv_vote ih hstep

/-- Claim C8 counterexample: the spec inequality
`valid_vote_count ≤ vote_count ≤ participant_count` can fail.  In
`traceReuse` a two-staker challenge ends `InsufficientParticipants`, the
waldo is refunded (closing the challenge but leaving both stake
accounts), the same id is re-created, and a leftover staker votes in the
new window: the new challenge then has `vote_count = 1` but
`participant_count = 0`. -/
theorem tally_inequality_cx :
    runTrace Chain.empty traceReuse = .ok sReuse ∧
    alookup sReuse.challenges "c" = some cReuse ∧
    cReuse.vote_count = 1 ∧ cReuse.participant_count = 0 ∧
    ¬ (cReuse.vote_count ≤ cReuse.participant_count) :=
  ⟨rfl, rfl, rfl, rfl, by decide⟩

/-- Claim C8 (amended): for a challenge created under a pristine id (no
leftover stake or vote accounts from an earlier, refunded challenge of
the same id), every sequence of successful `stake` and `submit_vote`
transactions keeps `valid_vote_count ≤ vote_count ≤ participant_count`
at every observable point. -/
theorem tally_inequality_amended {s0 : Chain} {now0 : Int} {w : Pubkey}
    {id : String} {lat lon : Int} {dur rp : Nat} {s1 s : Chain}
    (hinit : step s0 now0 (.initOp w id lat lon dur rp) = .ok s1)
    (hfreshS : stakerList s0.stakes id = [])
    (hfreshV : voterList s0.votes id = [])
    (hreach : SVReach s1 s) :
    ∀ c, alookup s.challenges id = some c →
      c.valid_vote_count ≤ c.vote_count ∧
      c.vote_count ≤ c.participant_count := by
  have h1 : TallyInv s1 id := by
    simp only [step] at hinit
    cases hC : alookup s0.challenges id with
    | some cc => rw [hC] at hinit; exact Except.noConfusion hinit
    | none =>
      rw [hC] at hinit
      dsimp only at hinit
      cases hH : initialize_challenge now0 w id lat lon dur rp with
      | error e => rw [hH] at hinit; exact Except.noConfusion hinit
      | ok c =>
        rw [hH] at hinit
        cases Except.ok.inj hinit
        obtain ⟨_, _, _, hcrec⟩ := initialize_challenge_ok hH
        constructor
        · intro c0 hcl
          dsimp only at hcl
          rw [alookup_aset_self] at hcl
          cases Option.some.inj hcl
          dsimp only
          rw [hcrec, hfreshS, hfreshV]
          exact ⟨rfl, rfl, Nat.le_refl 0⟩
        · dsimp only
          rw [hfreshS, hfreshV]
          intro p hp
          exact absurd hp (List.not_mem_nil p)
        · dsimp only
          rw [hfreshS]
          exact List.nodup_nil
        · dsimp only
          rw [hfreshV]
          exact List.nodup_nil
  have ht := tallyInv_svreach h1 hreach
  intro c hc
  obtain ⟨hpc, hvc, hvv⟩ := ht.counts c hc
  refine ⟨hvv, ?_⟩
  rw [hpc, hvc]
  exact ((ht.nodupVoters).subperm ht.votersStaked).length_le

theorem tally_inequality_amended_witness :
    cInit1.valid_vote_count ≤ cInit1.vote_count ∧
    cInit1.vote_count ≤ cInit1.participant_count :=
  tally_inequality_amended
    (rfl : step Chain.empty 0 (.initOp 9 "c" 0 0 100 3000000) = .ok sInit1)
    rfl rfl SVReach.base cInit1 rfl

end Poloc
